import Mathlib

/-!
Verification of the OBD diagnostic web service (src/main.py) against its
natural-language specification.

The Python program is embedded shallowly:

* the global `serial_data_buffer = deque(maxlen=1000)` becomes a `List` together
  with the append operation `dequeAppend`, which drops from the left once the
  fixed capacity is exceeded, exactly as a Python `deque` with `maxlen` does;
* the unbounded `data_log` list becomes a plain `List` with append;
* `ConnectionManager` becomes a structure holding the `active_connections` list
  and the `connection_ids` dictionary (an association list with unique keys);
  the outcome of `websocket.send_text` is abstracted by a `sendOk` oracle,
  since the per-connection `try/except` in `broadcast` catches any failure;
* the serial reader thread `read_serial_data` becomes a recursive function over
  a list of per-iteration environment events (external flag clears, presence of
  the serial handle, and the outcome of the poll);
* the WebSocket dispatcher `websocket_endpoint` becomes `wsStep`, a function
  from the parsed inbound frame to the messages sent back on that socket plus
  the bytes written to the serial port; the OpenAI completion call is abstracted
  by an oracle `api` returning either the reply content or the stringified
  exception, and a result of `Except.error ()` models an exception escaping to
  the outermost handler, which terminates the connection.
-/

/-- One serial sample, the dictionary built in `read_serial_data`:
`{"timestamp": timestamp, "data": line, "raw": line}`. -/
structure DataPoint where
  timestamp : String
  data : String
  raw : String
deriving DecidableEq, Repr

/-- Model of `deque.append` for a Python deque created with `deque(maxlen := m)`:
the new element goes to the right, and elements are discarded from the left
until the length is back within `m`. -/
def dequeAppend (m : Nat) (buf : List α) (x : α) : List α :=
  let b := buf ++ [x]
  b.drop (b.length - m)

/-- The buffer obtained by appending the samples `xs`, in order, to the
initially empty `serial_data_buffer = deque(maxlen=1000)`. -/
def serialBufferFold (xs : List DataPoint) : List DataPoint :=
  xs.foldl (dequeAppend 1000) []

/-- Handler of `GET /api/data/recent`: `list(serial_data_buffer)[-50:]`, the Python
negative slice keeping the last (at most) 50 elements. -/
def get_recent_data (buf : List DataPoint) : List DataPoint :=
  buf.drop (buf.length - 50)

theorem dequeAppend_canon (m : Nat) (L : List α) (x : α) :
    dequeAppend m (L.drop (L.length - m)) x = (L ++ [x]).drop (L.length + 1 - m) := by
  unfold dequeAppend
  rcases le_or_lt L.length m with h | h
  · rw [Nat.sub_eq_zero_of_le h]
    simp
  · rcases Nat.eq_zero_or_pos m with hm | hm
    · subst hm
      rw [List.drop_eq_nil_of_le, List.drop_eq_nil_of_le] <;> simp
    · have hlen : (L.drop (L.length - m)).length = m := by
        rw [List.length_drop]; omega
      rw [List.drop_append_eq_append_drop, List.drop_append_eq_append_drop,
        List.drop_drop]
      have hx : (List.drop (L.length - m) L ++ [x]).length = m + 1 := by
        simp [hlen]
      rw [hx]
      have e1 : L.length - m + (m + 1 - m) = L.length + 1 - m := by omega
      have e2 : m + 1 - m - m = L.length + 1 - m - L.length := by omega
      rw [e1, hlen, e2]

theorem foldl_dequeAppend (m : Nat) (xs : List α) (L : List α) :
    xs.foldl (dequeAppend m) (L.drop (L.length - m)) =
      (L ++ xs).drop ((L ++ xs).length - m) := by
  induction xs generalizing L with
  | nil => simp
  | cons x rest ih =>
    rw [List.foldl_cons, dequeAppend_canon]
    have hlen : L.length + 1 - m = (L ++ [x]).length - m := by simp
    rw [hlen]
    have := ih (L ++ [x])
    simpa [List.append_assoc] using this

/-- Claim C2: appending any sequence of samples to the initially empty
`serial_data_buffer` (a `deque(maxlen=1000)`) keeps the length at most 1000,
and the buffer holds exactly the most recently appended samples in arrival
order — the suffix of length `min 1000 xs.length` of the append sequence —
with the oldest sample evicted silently once the buffer is full. -/
theorem serial_buffer_capacity_and_order (xs : List DataPoint) :
    (serialBufferFold xs).length ≤ 1000 ∧
      serialBufferFold xs = xs.drop (xs.length - 1000) := by
  have h : serialBufferFold xs = xs.drop (xs.length - 1000) := by
    have := foldl_dequeAppend 1000 xs ([] : List DataPoint)
    simpa [serialBufferFold] using this
  refine ⟨?_, h⟩
  rw [h, List.length_drop]
  omega

/-- Claim C10: `GET /api/data/recent` returns the last (at most) 50 samples of
the ring buffer in arrival order; since the ring buffer itself holds the last
1000 appended samples, the endpoint returns exactly the 50 most recently
appended samples, all of them when fewer than 50 have been appended.  The
handler only reads the buffer (it is a pure function of it). -/
theorem get_recent_data_spec (xs : List DataPoint) :
    get_recent_data (serialBufferFold xs) = xs.drop (xs.length - 50) ∧
      (get_recent_data (serialBufferFold xs)).length ≤ 50 ∧
      (xs.length ≤ 50 → get_recent_data (serialBufferFold xs) = xs) := by
  have hbuf : serialBufferFold xs = xs.drop (xs.length - 1000) :=
    (serial_buffer_capacity_and_order xs).2
  have hmain : get_recent_data (serialBufferFold xs) = xs.drop (xs.length - 50) := by
    rw [hbuf]
    unfold get_recent_data
    rw [List.drop_drop, List.length_drop]
    have he : xs.length - 1000 + (xs.length - (xs.length - 1000) - 50) = xs.length - 50 := by
      omega
    rw [he]
  refine ⟨hmain, ?_, ?_⟩
  · rw [hmain, List.length_drop]; omega
  · intro hle
    rw [hmain, Nat.sub_eq_zero_of_le hle, List.drop_zero]

/-- A sample used to evaluate the endpoint on concrete data. -/
def dpA : DataPoint := ⟨"2024-01-01T00:00:00", "41 0C 1A F8", "41 0C 1A F8"⟩

/-- A second sample used to evaluate the endpoint on concrete data. -/
def dpB : DataPoint := ⟨"2024-01-01T00:00:01", "41 0D 32", "41 0D 32"⟩

theorem get_recent_data_spec_witness :
    [dpA, dpB].length ≤ 50 ∧ get_recent_data (serialBufferFold [dpA, dpB]) = [dpA, dpB] :=
  ⟨by decide, (get_recent_data_spec [dpA, dpB]).2.2 (by decide)⟩

/-- The `ConnectionManager` state: the `active_connections` list and the
`connection_ids` dictionary keyed by the connection.  WebSocket objects are
identified by natural numbers; the dictionary is an association list whose
keys are unique, as in a Python dict. -/
structure ConnectionManager where
  active_connections : List Nat
  connection_ids : List (Nat × String)
deriving DecidableEq, Repr

/-- Model of `ConnectionManager.connect`: accept the websocket, append it to
`active_connections`, and bind its id in the dictionary; when the given id is
empty the default id is derived from the new list length.  A freshly accepted
websocket object is never already registered. -/
def ConnectionManager.connect (m : ConnectionManager) (ws : Nat)
    (client_id : String) : ConnectionManager :=
  { active_connections := m.active_connections ++ [ws],
    connection_ids := m.connection_ids ++
      [(ws, if client_id = "" then
              "client_" ++ toString (m.active_connections.length + 1)
            else client_id)] }

/-- Model of `ConnectionManager.disconnect`: if the websocket is in
`active_connections`, remove it (`list.remove` takes the first occurrence) and,
if it has an entry in `connection_ids`, delete that dictionary entry; if the
websocket is not in `active_connections`, do nothing. -/
def ConnectionManager.disconnect (m : ConnectionManager) (ws : Nat) :
    ConnectionManager :=
  if ws ∈ m.active_connections then
    { active_connections := m.active_connections.erase ws,
      connection_ids :=
        if ws ∈ m.connection_ids.map Prod.fst then
          m.connection_ids.filter (fun p => p.1 != ws)
        else m.connection_ids }
  else m

/-- Invariant of the reachable `ConnectionManager` states: no websocket is
registered twice, the dictionary has at most one entry per websocket, and
every websocket with a dictionary entry is in `active_connections`
(`connect` adds to both structures, `disconnect` removes from both). -/
def ConnectionManager.Inv (m : ConnectionManager) : Prop :=
  m.active_connections.Nodup ∧ (m.connection_ids.map Prod.fst).Nodup ∧
    ∀ p ∈ m.connection_ids, p.1 ∈ m.active_connections

instance (m : ConnectionManager) : Decidable m.Inv := by
  unfold ConnectionManager.Inv
  infer_instance

theorem disconnect_active (m : ConnectionManager) (ws : Nat) :
    (m.disconnect ws).active_connections = m.active_connections.erase ws := by
  unfold ConnectionManager.disconnect
  split
  · rfl
  · next h => exact (List.erase_of_not_mem h).symm

theorem disconnect_ids_mem (m : ConnectionManager) (ws : Nat) :
    ∀ p ∈ (m.disconnect ws).connection_ids, p ∈ m.connection_ids := by
  intro p hp
  by_cases h1 : ws ∈ m.active_connections
  · by_cases h2 : ws ∈ m.connection_ids.map Prod.fst
    · simp only [ConnectionManager.disconnect, if_pos h1, if_pos h2] at hp
      exact (List.mem_filter.mp hp).1
    · simp only [ConnectionManager.disconnect, if_pos h1, if_neg h2] at hp
      exact hp
  · simp only [ConnectionManager.disconnect, if_neg h1] at hp
    exact hp

theorem disconnect_ids_key (m : ConnectionManager) (ws : Nat) (h : m.Inv) :
    ∀ p ∈ (m.disconnect ws).connection_ids, p.1 ≠ ws := by
  intro p hp
  by_cases h1 : ws ∈ m.active_connections
  · by_cases h2 : ws ∈ m.connection_ids.map Prod.fst
    · simp only [ConnectionManager.disconnect, if_pos h1, if_pos h2] at hp
      have := (List.mem_filter.mp hp).2
      simpa using this
    · simp only [ConnectionManager.disconnect, if_pos h1, if_neg h2] at hp
      intro hq
      exact h2 (List.mem_map.mpr ⟨p, hp, hq⟩)
  · simp only [ConnectionManager.disconnect, if_neg h1] at hp
    intro hq
    exact h1 (hq ▸ h.2.2 p hp)

theorem disconnect_ids_sublist (m : ConnectionManager) (ws : Nat) :
    List.Sublist (m.disconnect ws).connection_ids m.connection_ids := by
  by_cases h1 : ws ∈ m.active_connections
  · by_cases h2 : ws ∈ m.connection_ids.map Prod.fst
    · simp only [ConnectionManager.disconnect, if_pos h1, if_pos h2]
      exact List.filter_sublist _
    · simp only [ConnectionManager.disconnect, if_pos h1, if_neg h2]
      exact List.Sublist.refl _
  · simp only [ConnectionManager.disconnect, if_neg h1]
    exact List.Sublist.refl _

theorem disconnect_Inv (m : ConnectionManager) (ws : Nat) (h : m.Inv) :
    (m.disconnect ws).Inv := by
  obtain ⟨hnd, hkeys, hcoh⟩ := h
  refine ⟨?_, ?_, ?_⟩
  · rw [disconnect_active]
    exact hnd.erase ws
  · exact ((disconnect_ids_sublist m ws).map Prod.fst).nodup hkeys
  · intro p hp
    rw [disconnect_active]
    have hmem : p ∈ m.connection_ids := disconnect_ids_mem m ws p hp
    have hin : p.1 ∈ m.active_connections := hcoh p hmem
    by_cases h1 : ws ∈ m.active_connections
    · have hne : p.1 ≠ ws := disconnect_ids_key m ws ⟨hnd, hkeys, hcoh⟩ p hp
      exact hnd.mem_erase_iff.mpr ⟨hne, hin⟩
    · rw [List.erase_of_not_mem h1]
      exact hin

theorem connect_Inv (m : ConnectionManager) (ws : Nat) (cid : String) (h : m.Inv)
    (hfresh : ws ∉ m.active_connections) : (m.connect ws cid).Inv := by
  obtain ⟨hnd, hkeys, hcoh⟩ := h
  have hkey : ws ∉ m.connection_ids.map Prod.fst := by
    intro habs
    obtain ⟨p, hp, hpe⟩ := List.mem_map.mp habs
    exact hfresh (hpe ▸ hcoh p hp)
  refine ⟨?_, ?_, ?_⟩
  · simpa [ConnectionManager.connect, List.nodup_append] using ⟨hnd, hfresh⟩
  · have hmap : (m.connect ws cid).connection_ids.map Prod.fst =
        m.connection_ids.map Prod.fst ++ [ws] := by
      simp [ConnectionManager.connect]
    rw [hmap]
    refine List.Nodup.append hkeys (List.nodup_singleton ws) ?_
    intro a ha hb
    rw [List.mem_singleton] at hb
    subst hb
    exact hkey ha
  · intro p hp
    simp only [ConnectionManager.connect, List.mem_append] at hp ⊢
    rcases hp with hp | hp
    · exact Or.inl (hcoh p hp)
    · simp only [List.mem_singleton] at hp
      subst hp
      simp

/-- Claim C4: after `disconnect ws` the registry contains `ws` in neither the
active-connection list nor the id dictionary, and if `ws` is not registered
the call leaves the manager unchanged, so `disconnect` is idempotent. -/
theorem disconnect_deregisters (m : ConnectionManager) (ws : Nat) (h : m.Inv) :
    ws ∉ (m.disconnect ws).active_connections ∧
      (∀ p ∈ (m.disconnect ws).connection_ids, p.1 ≠ ws) ∧
      (ws ∉ m.active_connections → m.disconnect ws = m) := by
  refine ⟨?_, disconnect_ids_key m ws h, ?_⟩
  · rw [disconnect_active]
    intro hmem
    exact (h.1.mem_erase_iff.mp hmem).1 rfl
  · intro habs
    simp [ConnectionManager.disconnect, if_neg habs]

/-- A concrete manager state with two registered connections. -/
def cmSample : ConnectionManager := ⟨[1, 2], [(1, "alpha"), (2, "beta")]⟩

theorem disconnect_deregisters_witness :
    cmSample.Inv ∧ 1 ∉ (cmSample.disconnect 1).active_connections :=
  ⟨by decide, (disconnect_deregisters cmSample 1 (by decide)).1⟩

/-- Model of `ConnectionManager.broadcast`: iterate over `active_connections`,
attempting `send_text` on each connection — the outcome of one send is given
by the oracle `sendOk`, and the per-connection `try/except` in the loop means
one failure never stops the iteration — collect the failed connections in
iteration order, and finally `disconnect` each of them.  Returns the new
manager state paired with the list of connections a send was attempted on. -/
def ConnectionManager.broadcast (m : ConnectionManager) (sendOk : Nat → Bool) :
    ConnectionManager × List Nat :=
  let disconnected := m.active_connections.filter (fun c => !(sendOk c))
  (disconnected.foldl (fun s c => s.disconnect c) m, m.active_connections)

theorem foldl_disconnect_active (ds : List Nat) (m : ConnectionManager) :
    (ds.foldl (fun s c => s.disconnect c) m).active_connections =
      ds.foldl List.erase m.active_connections := by
  induction ds generalizing m with
  | nil => rfl
  | cons d rest ih =>
    rw [List.foldl_cons, List.foldl_cons, ih, disconnect_active]

theorem foldl_disconnect_Inv (ds : List Nat) (m : ConnectionManager) (h : m.Inv) :
    (ds.foldl (fun s c => s.disconnect c) m).Inv := by
  induction ds generalizing m with
  | nil => exact h
  | cons d rest ih => exact ih _ (disconnect_Inv m d h)

theorem mem_foldl_erase (ds : List Nat) (l : List Nat) (hl : l.Nodup) (x : Nat) :
    x ∈ ds.foldl List.erase l ↔ x ∈ l ∧ x ∉ ds := by
  induction ds generalizing l with
  | nil => simp
  | cons d rest ih =>
    rw [List.foldl_cons, ih _ (hl.erase d), hl.mem_erase_iff]
    simp only [List.mem_cons]
    tauto

/-- Claim C3: `broadcast` attempts a send to every registered connection (a
failure on one connection never prevents the attempt on the remaining ones),
every connection whose send fails is deregistered — from the list and the id
dictionary — by the end of the broadcast, and every connection whose send
succeeds stays registered. -/
theorem broadcast_best_effort (m : ConnectionManager) (sendOk : Nat → Bool)
    (h : m.Inv) :
    (m.broadcast sendOk).2 = m.active_connections ∧
      (∀ c ∈ m.active_connections, sendOk c = false →
        c ∉ (m.broadcast sendOk).1.active_connections ∧
          ∀ p ∈ (m.broadcast sendOk).1.connection_ids, p.1 ≠ c) ∧
      (∀ c ∈ m.active_connections, sendOk c = true →
        c ∈ (m.broadcast sendOk).1.active_connections) := by
  have hactive : (m.broadcast sendOk).1.active_connections =
      (m.active_connections.filter (fun c => !(sendOk c))).foldl List.erase
        m.active_connections := by
    simp only [ConnectionManager.broadcast]
    exact foldl_disconnect_active _ m
  have hinv : (m.broadcast sendOk).1.Inv := by
    simp only [ConnectionManager.broadcast]
    exact foldl_disconnect_Inv _ m h
  refine ⟨rfl, ?_, ?_⟩
  · intro c hc hfail
    have hmem : c ∉ (m.broadcast sendOk).1.active_connections := by
      rw [hactive, mem_foldl_erase _ _ h.1]
      rintro ⟨-, habs⟩
      exact habs (List.mem_filter.mpr ⟨hc, by simp [hfail]⟩)
    refine ⟨hmem, ?_⟩
    intro p hp hpc
    exact hmem (hpc ▸ hinv.2.2 p hp)
  · intro c hc hok
    rw [hactive, mem_foldl_erase _ _ h.1]
    refine ⟨hc, ?_⟩
    intro habs
    have := (List.mem_filter.mp habs).2
    simp [hok] at this

/-- A send oracle under which the send to connection 2 fails and every other
send succeeds. -/
def sendOkSample : Nat → Bool := fun c => c != 2

theorem broadcast_best_effort_witness :
    cmSample.Inv ∧
      2 ∉ (cmSample.broadcast sendOkSample).1.active_connections ∧
      1 ∈ (cmSample.broadcast sendOkSample).1.active_connections :=
  ⟨by decide,
    ((broadcast_best_effort cmSample sendOkSample (by decide)).2.1 2 (by decide)
      (by decide)).1,
    (broadcast_best_effort cmSample sendOkSample (by decide)).2.2 1 (by decide)
      (by decide)⟩

/-- The sample dictionary built in `read_serial_data` for one decoded,
stripped line: the current timestamp, the line as the `data` field and the
same line duplicated as the `raw` field. -/
def mkDataPoint (timestamp line : String) : DataPoint :=
  ⟨timestamp, line, line⟩

/-- The three shared containers touched by the serial reader thread: the
fixed-capacity ring buffer `serial_data_buffer`, the unbounded `data_log`
list, and the queue of `serial_data` broadcasts scheduled onto the event loop
(represented by the data points they carry, oldest first). -/
structure SerialBuffers where
  serial_data_buffer : List DataPoint
  data_log : List DataPoint
  scheduled : List DataPoint
deriving DecidableEq, Repr

/-- The body of one polling iteration of `read_serial_data` once a line has
been read, decoded and stripped: an empty line is dropped; a non-empty line is
wrapped into one data point, appended to the ring buffer and to the log, and a
broadcast of that same data point is scheduled. -/
def processSerialLine (s : SerialBuffers) (timestamp line : String) :
    SerialBuffers :=
  if line = "" then s
  else
    let data_point := mkDataPoint timestamp line
    { serial_data_buffer := dequeAppend 1000 s.serial_data_buffer data_point,
      data_log := s.data_log ++ [data_point],
      scheduled := s.scheduled ++ [data_point] }

/-- Claim C7: for a non-empty line, exactly one record is built, carrying the
timestamp, the line as the `raw` field and the same line duplicated in the
`data` field; that one record is appended to the ring buffer and to the
append-only log, and the scheduled broadcast carries the identical record. -/
theorem process_serial_line_spec (s : SerialBuffers) (ts line : String)
    (h : line ≠ "") :
    (mkDataPoint ts line).timestamp = ts ∧
      (mkDataPoint ts line).raw = line ∧
      (mkDataPoint ts line).data = line ∧
      (processSerialLine s ts line).serial_data_buffer =
        dequeAppend 1000 s.serial_data_buffer (mkDataPoint ts line) ∧
      (processSerialLine s ts line).data_log =
        s.data_log ++ [mkDataPoint ts line] ∧
      (processSerialLine s ts line).scheduled =
        s.scheduled ++ [mkDataPoint ts line] := by
  refine ⟨rfl, rfl, rfl, ?_, ?_, ?_⟩ <;>
    simp [processSerialLine, if_neg h]

/-- An initially empty triple of serial containers. -/
def sbEmpty : SerialBuffers := ⟨[], [], []⟩

theorem process_serial_line_spec_witness :
    ("41 05 3C" : String) ≠ "" ∧
      (processSerialLine sbEmpty "2024-01-01T00:00:02" "41 05 3C").data_log =
        [mkDataPoint "2024-01-01T00:00:02" "41 05 3C"] :=
  ⟨by decide,
    by
      have h :=
        (process_serial_line_spec sbEmpty "2024-01-01T00:00:02" "41 05 3C"
          (by decide)).2.2.2.2.1
      simpa [sbEmpty] using h⟩

/-- What the environment presents to one iteration of the polling loop:
whether some other thread has cleared `is_reading_serial` since the previous
iteration, whether `serial_connection` is still set, and the outcome of the
poll — nothing waiting, a decoded and stripped line, or an exception raised
by the serial read. -/
inductive PollOutcome
  | idle
  | line (timestamp text : String)
  | err
deriving DecidableEq, Repr

structure IterEnv where
  extClear : Bool
  connPresent : Bool
  outcome : PollOutcome
deriving DecidableEq, Repr

/-- The state of the serial reader thread: the global `is_reading_serial`
flag and the shared containers. -/
structure ReaderState where
  is_reading_serial : Bool
  bufs : SerialBuffers
deriving DecidableEq, Repr

/-- The `while is_reading_serial and serial_connection:` loop of
`read_serial_data`, driven by a finite list of per-iteration environments.
Returns the final state together with `true` when the loop exited (the while
test failed, or an exception was caught, which also clears the global flag
and breaks) and `false` when the supplied environment list ran out with the
loop still running. -/
def read_serial_data : ReaderState → List IterEnv → ReaderState × Bool
  | s, [] => (s, false)
  | s, e :: rest =>
    let flag := s.is_reading_serial && !e.extClear
    let s0 : ReaderState := { s with is_reading_serial := flag }
    if flag && e.connPresent then
      match e.outcome with
      | .err => ({ s0 with is_reading_serial := false }, true)
      | .idle => read_serial_data s0 rest
      | .line ts txt =>
        read_serial_data { s0 with bufs := processSerialLine s0.bufs ts txt } rest
    else (s0, true)

/-- Claim C8: the reader loop terminates when the global read-enable flag has
been cleared — it exits at once, without looking at the remaining iterations —
and when a read raises an exception it exits immediately with the flag cleared
by the loop itself, so after an error the reader is never still reading. -/
theorem read_serial_data_stops (s : ReaderState) (e : IterEnv)
    (rest : List IterEnv) :
    ((s.is_reading_serial && !e.extClear) = false →
      read_serial_data s (e :: rest) =
        ({ s with is_reading_serial := false }, true)) ∧
      ((s.is_reading_serial && !e.extClear) = true → e.connPresent = true →
        e.outcome = PollOutcome.err →
        read_serial_data s (e :: rest) =
          ({ s with is_reading_serial := false }, true)) := by
  constructor
  · intro hflag
    simp [read_serial_data, hflag]
  · intro hflag hconn hout
    simp [read_serial_data, hflag, hconn, hout]

theorem read_serial_data_stops_witness :
    ((⟨true, sbEmpty⟩ : ReaderState).is_reading_serial &&
        !(⟨false, true, PollOutcome.err⟩ : IterEnv).extClear) = true ∧
      read_serial_data ⟨true, sbEmpty⟩
          [⟨false, true, PollOutcome.err⟩, ⟨false, true, PollOutcome.idle⟩] =
        (⟨false, sbEmpty⟩, true) :=
  ⟨by decide,
    (read_serial_data_stops ⟨true, sbEmpty⟩ ⟨false, true, PollOutcome.err⟩
      [⟨false, true, PollOutcome.idle⟩]).2 (by decide) (by decide) (by decide)⟩

/-- One message of the request body sent to the remote completion endpoint. -/
structure ChatMsg where
  role : String
  content : String
deriving DecidableEq, Repr

/-- The fixed system prompt of both chat paths in `websocket_endpoint`. -/
def systemPrompt : String :=
  "You are an expert OBD diagnostic assistant. Help users understand their vehicle diagnostics data."

/-- The `messages` list of one call to the remote completion endpoint: the
fixed system prompt followed by the current inbound text as the user turn.
This is everything the handler sends; it is built from the current frame
alone. -/
def chatMessages (user_input : String) : List ChatMsg :=
  [⟨"system", systemPrompt⟩, ⟨"user", user_input⟩]

/-- One inbound WebSocket text frame, after the `json.loads` attempt:
either the frame is not valid JSON (a `JSONDecodeError`), or it is valid JSON
but not an object (so the `.get` calls raise, uncaught by the inner handler),
or it is an object with its optional `type`, `message` and `command` fields. -/
inductive Inbound
  | invalidJson (raw : String)
  | nonObject
  | jsonObj (type_ : Option String) (message : Option String)
      (command : Option String)
deriving DecidableEq, Repr

/-- A message sent back on the websocket, one constructor per shape of
`json.dumps` payload used by the handler, plus `plain` for the legacy path
that sends raw text. -/
inductive SentMsg
  | chatResponse (message : String)
  | errorMsg (message : String)
  | serialResponse (message : String)
  | pong
  | plain (text : String)
deriving DecidableEq, Repr

/-- One iteration of the `websocket_endpoint` receive loop on a parsed
inbound frame.  `clientPresent` is whether the OpenAI client was configured,
`api` gives the outcome of one completion call (reply content, or the
stringified exception), `serialOpen` is whether `serial_connection` is set
and open, and `writeResult` is the outcome of a `serial_connection.write`.
The result is the list of messages sent on this websocket paired with the
strings written to the serial port, or `Except.error ()` when an uncaught
exception reaches the outermost handler and the connection is terminated. -/
def wsStep (clientPresent : Bool) (api : List ChatMsg → Except String String)
    (serialOpen : Bool) (writeResult : Except String Unit) :
    Inbound → Except Unit (List SentMsg × List String)
  | Inbound.invalidJson raw =>
    if clientPresent then
      match api (chatMessages raw) with
      | Except.ok reply => Except.ok ([SentMsg.plain reply], [])
      | Except.error e => Except.ok ([SentMsg.plain ("Error: " ++ e)], [])
    else Except.ok ([], [])
  | Inbound.nonObject => Except.error ()
  | Inbound.jsonObj ty msg cmd =>
    let message_type := ty.getD "chat"
    if message_type = "chat" ∧ clientPresent then
      match api (chatMessages (msg.getD "")) with
      | Except.ok reply => Except.ok ([SentMsg.chatResponse reply], [])
      | Except.error e =>
        Except.ok ([SentMsg.errorMsg ("Error contacting AI: " ++ e)], [])
    else if message_type = "serial_command" then
      if serialOpen then
        match writeResult with
        | Except.ok _ =>
          Except.ok ([SentMsg.serialResponse ("Command sent: " ++ cmd.getD "")],
            [cmd.getD "" ++ "\n"])
        | Except.error _ => Except.error ()
      else Except.ok ([SentMsg.errorMsg "Serial port not connected"], [])
    else if message_type = "ping" then Except.ok ([SentMsg.pong], [])
    else Except.ok ([], [])

/-- The body returned by an HTTP handler: the `success` flag and `message`. -/
structure ApiResult where
  success : Bool
  message : String
deriving DecidableEq, Repr

/-- Handler of `POST /api/serial/connect`: read the port and baud rate from the request
JSON with their defaults, then try to open the serial device and start the
reader thread — the outcome of that `try` block is `openResult`; on success
report the connection, on any exception report `Error:` with `str(e)`. -/
def connect_serial (openResult : Except String Unit) (port : Option String)
    (baud_rate : Option Nat) : ApiResult :=
  let p := port.getD "/dev/ttyUSB0"
  let b := baud_rate.getD 9600
  match openResult with
  | Except.ok _ =>
    ⟨true, "Connected to " ++ p ++ " at " ++ toString b ++ " baud"⟩
  | Except.error e => ⟨false, "Error: " ++ e⟩

/-- The successive chat turns of one WebSocket connection.  The receive loop
in `websocket_endpoint` keeps no variable alive between iterations, which
this recursion makes explicit: for each inbound chat text the handler builds
the request message list sent to the remote completion endpoint from that
text alone, and relays the reply (or the stringified error).  Each turn is
returned as the pair of the request sent to the remote API and the message
relayed back on the websocket. -/
def chatSession (api : List ChatMsg → Except String String) :
    List String → List (List ChatMsg × SentMsg)
  | [] => []
  | inp :: rest =>
    let req := chatMessages inp
    let out :=
      match api req with
      | Except.ok reply => SentMsg.chatResponse reply
      | Except.error e => SentMsg.errorMsg ("Error contacting AI: " ++ e)
    (req, out) :: chatSession api rest

/-- Claim C9: a well-formed JSON frame whose type field is the string ping
gets exactly the pong reply on the same connection and nothing else: no other
message is sent, nothing is written to the serial port, no buffer or registry
is touched, and the connection is not terminated. -/
theorem ping_pong (cp so : Bool) (api : List ChatMsg → Except String String)
    (wr : Except String Unit) (msg cmd : Option String) :
    wsStep cp api so wr (Inbound.jsonObj (some "ping") msg cmd) =
      Except.ok ([SentMsg.pong], []) := by
  simp [wsStep]

/-- Claim C5: a text frame that is not valid JSON never terminates the
connection — the `JSONDecodeError` is caught and control falls to the legacy
plain-text path, which, when the OpenAI client is configured, forwards the
raw frame to the remote completion endpoint and relays the reply, or the
stringified error, as plain text; without a configured client the frame is
ignored and the connection still survives. -/
theorem invalid_json_fallback (raw reply err : String) (cp so : Bool)
    (api : List ChatMsg → Except String String) (wr : Except String Unit) :
    wsStep cp api so wr (Inbound.invalidJson raw) ≠ Except.error () ∧
      (cp = true → api (chatMessages raw) = Except.ok reply →
        wsStep cp api so wr (Inbound.invalidJson raw) =
          Except.ok ([SentMsg.plain reply], [])) ∧
      (cp = true → api (chatMessages raw) = Except.error err →
        wsStep cp api so wr (Inbound.invalidJson raw) =
          Except.ok ([SentMsg.plain ("Error: " ++ err)], [])) ∧
      (cp = false →
        wsStep cp api so wr (Inbound.invalidJson raw) = Except.ok ([], [])) := by
  refine ⟨?_, ?_, ?_, ?_⟩
  · cases hcp : cp
    · simp [wsStep]
    · cases h : api (chatMessages raw) <;> simp [wsStep, h]
  · intro hcp h
    simp [wsStep, hcp, h]
  · intro hcp h
    simp [wsStep, hcp, h]
  · intro hcp
    simp [wsStep, hcp]

/-- An oracle standing for a completion call that succeeds with a fixed
reply. -/
def apiEcho : List ChatMsg → Except String String :=
  fun _ => Except.ok "the assistant reply"

theorem invalid_json_fallback_witness :
    (true : Bool) = true ∧
      apiEcho (chatMessages "plain hello") = Except.ok "the assistant reply" ∧
      wsStep true apiEcho false (Except.ok ()) (Inbound.invalidJson "plain hello") =
        Except.ok ([SentMsg.plain "the assistant reply"], []) :=
  ⟨rfl, rfl,
    (invalid_json_fallback "plain hello" "the assistant reply" "e" true false
      apiEcho (Except.ok ())).2.1 rfl rfl⟩

/-- Claim C6: at both call sites that contact the remote API or the serial
device inside a try/except — the chat relay (JSON path and legacy plain-text
path) and `POST /api/serial/connect` — a raised exception is caught,
stringified, and delivered to the caller in place of the expected payload:
the HTTP handler returns a body with success false carrying the error string,
and the WebSocket handler sends an error message while the connection
survives and the process keeps running (the handlers stay total and never
return the terminating outcome). -/
theorem exception_stringified (port : Option String) (baud : Option Nat)
    (e1 e2 e3 inp raw : String) (api : List ChatMsg → Except String String)
    (so : Bool) (wr : Except String Unit) :
    connect_serial (Except.error e1) port baud =
        ⟨false, "Error: " ++ e1⟩ ∧
      (api (chatMessages inp) = Except.error e2 →
        wsStep true api so wr (Inbound.jsonObj (some "chat") (some inp) none) =
          Except.ok ([SentMsg.errorMsg ("Error contacting AI: " ++ e2)], [])) ∧
      (api (chatMessages raw) = Except.error e3 →
        wsStep true api so wr (Inbound.invalidJson raw) =
          Except.ok ([SentMsg.plain ("Error: " ++ e3)], [])) := by
  refine ⟨rfl, ?_, ?_⟩
  · intro h
    simp [wsStep, h]
  · intro h
    simp [wsStep, h]

/-- An oracle standing for a completion call that raises; the stringified
exception is the word boom. -/
def apiBoom : List ChatMsg → Except String String :=
  fun _ => Except.error "boom"

theorem exception_stringified_witness :
    apiBoom (chatMessages "hi") = Except.error "boom" ∧
      connect_serial (Except.error "no such port") none none =
        ⟨false, "Error: " ++ "no such port"⟩ ∧
      wsStep true apiBoom true (Except.ok ())
          (Inbound.jsonObj (some "chat") (some "hi") none) =
        Except.ok ([SentMsg.errorMsg ("Error contacting AI: " ++ "boom")], []) :=
  ⟨rfl,
    (exception_stringified none none "no such port" "boom" "x" "hi" "y" apiBoom
      true (Except.ok ())).1,
    (exception_stringified none none "no such port" "boom" "x" "hi" "y" apiBoom
      true (Except.ok ())).2.1 rfl⟩

/-- Claim C1 as stated fails on the code.  Even when the remote API returns
the opaque identifier below as its reply to the first turn, the request of
the second turn is exactly the fixed system prompt plus the second inbound
text: nothing returned by the remote API on an earlier turn — no continuity
token — is held per-connection or passed back on the next call. -/
theorem chat_no_continuity_token :
    (chatSession (fun _ => Except.ok "tok_ABC123")
          ["hello", "second turn"]).map Prod.fst =
      [[⟨"system", systemPrompt⟩, ⟨"user", "hello"⟩],
        [⟨"system", systemPrompt⟩, ⟨"user", "second turn"⟩]] ∧
      List.all
          (((chatSession (fun _ => Except.ok "tok_ABC123")
              ["hello", "second turn"]).map Prod.fst).getD 1 [])
          (fun m => m.content != "tok_ABC123") = true := by
  constructor
  · rfl
  · decide

/-- Claim C1 amended: the chat relay forwards the inbound user text verbatim
as the single user message, after the fixed system prompt, and is stateless
across turns — the sequence of requests sent to the remote completion
endpoint is `inputs.map chatMessages`, independent of everything the remote
API returned on earlier turns, so no continuity token is held or passed
back. -/
theorem chat_relay_stateless (api api2 : List ChatMsg → Except String String)
    (inputs : List String) :
    (chatSession api inputs).map Prod.fst = inputs.map chatMessages ∧
      (chatSession api inputs).map Prod.fst =
        (chatSession api2 inputs).map Prod.fst := by
  have h : ∀ f : List ChatMsg → Except String String,
      (chatSession f inputs).map Prod.fst = inputs.map chatMessages := by
    intro f
    induction inputs with
    | nil => rfl
    | cons a t ih => simp [chatSession, ih]
  exact ⟨h api, (h api).trans (h api2).symm⟩
